import Mathlib

/-!
Verification development for the myday deploy-app utility.

The repository ships two complete copies of the same command-line tool
(an `index` copy and a `main` copy, each with its own bin script).  Both
copies define a `MydayDeployApp` class with a constructor and the methods
`authorize`, `getCurrentVersion`, `uploadApp` and `start`.  The two copies
differ in how `authorize` resolves the OAuth token endpoint (well-known
discovery document vs the fixed conventional `/connect/token` path) and in
minor message wording; `getCurrentVersion`, `uploadApp` and the
constructor's derived fields are identical in both copies.

The embedding below models each HTTP interaction as the list of requests
the code issues, with the responses the code consumes passed in as typed
inputs (the code only ever reads the fields modelled here).  Console
formatting (chalk bold) is dropped; log messages are modelled as the plain
interpolated strings.
-/

namespace MydayDeploy

/-- Body of an outgoing HTTP request: absent, URL-encoded form fields
(`form:` option of the request helper), or a multipart form carrying the
zip archive (`formData: { file }`). -/
inductive Body where
  | none : Body
  | form (fields : List (String × String)) : Body
  | multipart (file : String) : Body
deriving DecidableEq, Repr

/-- One HTTP request issued through the `request-promise-native` helper.
The helper defaults to GET when no method is given. -/
structure HttpRequest where
  url : String
  method : String
  body : Body
deriving DecidableEq, Repr

instance : Inhabited HttpRequest := ⟨⟨"", "GET", Body.none⟩⟩

/-- A JavaScript value as it may arrive for the `tenantId` option
(yargs can hand over a string, the string literal null, or a non-string
value such as undefined or a number). -/
inductive JsVal where
  | str (s : String) : JsVal
  | jsNull : JsVal
  | undef : JsVal
  | num (n : Int) : JsVal
  | boolean (b : Bool) : JsVal
deriving DecidableEq, Repr

/-- Constructor line
`this.tenantId = typeof tenantId === 'string' && tenantId !== 'null' ? tenantId : null`
(identical in both copies). -/
def storedTenantId : JsVal → Option String
  | JsVal.str s => if s == "null" then Option.none else some s
  | _ => Option.none

/-- JavaScript truthiness of a string-or-null value: null, undefined and
the empty string are falsy, every other string is truthy. -/
def jsTruthy : Option String → Bool
  | Option.none => false
  | some s => !(s == "")

/-- Constructor line `this.appScope = this.tenantId ? 'Tenant' : 'Global'`
(identical in both copies). -/
def derivedAppScope (t : Option String) : String :=
  if jsTruthy t then "Tenant" else "Global"

/-- Constructor line `this.clientScope = this.legacy ? 'myday-api' : 'myday_api'`
(identical in both copies). -/
def clientScopeOf (legacy : Bool) : String :=
  if legacy then "myday-api" else "myday_api"

/-- The constructed `MydayDeployApp` object state (the fields the
deployment workflow reads).  The `index` copy names the dry-run flag
`dryRun`, the `main` copy names it `dry`; both are modelled by `dryRun`. -/
structure AppCfg where
  appId : String
  file : String
  legacy : Bool
  tenantId : Option String
  appScope : String
  apiUrl : String
  idSrvUrl : String
  clientId : String
  clientSecret : String
  clientScope : String
  dryRun : Bool

/-- The `MydayDeployApp` constructor (the field computations; the `index`
copy additionally validates `appId` and the URLs and the CLI of the `main`
copy validates them up front, which no claim concerns).
`legacy` is `platform === 'v2'`. -/
def mkAppCfg (appId file platform : String) (tenantId : JsVal)
    (apiUrl idSrvUrl clientId clientSecret : String) (dryRun : Bool) : AppCfg :=
  let legacy := platform == "v2"
  let t := storedTenantId tenantId
  { appId := appId
    file := file
    legacy := legacy
    tenantId := t
    appScope := derivedAppScope t
    apiUrl := apiUrl
    idSrvUrl := idSrvUrl
    clientId := clientId
    clientSecret := clientSecret
    clientScope := clientScopeOf legacy
    dryRun := dryRun }

/-- The form body of the client-credentials token request, in the order the
source object literal lists the fields. -/
def tokenForm (client_id client_secret scope : String) : List (String × String) :=
  [("grant_type", "client_credentials"),
   ("client_id", client_id),
   ("client_secret", client_secret),
   ("scope", scope)]

/-- `authorize` of the `index` copy: fetches the well-known discovery
document from `url + '/.well-known/openid-configuration'`, reads
`token_endpoint` from it, then POSTs the form-encoded client-credentials
grant to that endpoint and returns the `access_token` of the response. -/
def Index.authorize (url client_id client_secret scope : String)
    (token_endpoint access_token : String) : List HttpRequest × String :=
  ([⟨url ++ "/.well-known/openid-configuration", "GET", Body.none⟩,
    ⟨token_endpoint, "POST", Body.form (tokenForm client_id client_secret scope)⟩],
   access_token)

/-- `authorize` of the `main` copy: POSTs the form-encoded
client-credentials grant straight to the fixed conventional path
`url + '/connect/token'` and returns the `access_token` of the response. -/
def MainSrc.authorize (url client_id client_secret scope : String)
    (access_token : String) : List HttpRequest × String :=
  ([⟨url ++ "/connect/token", "POST", Body.form (tokenForm client_id client_secret scope)⟩],
   access_token)

/-- A record of the legacy (`v2`) app listing: `id`, `name`, `version` at
top level. -/
structure LegacyRecord where
  id : String
  name : String
  version : String
deriving DecidableEq, Repr

/-- The app model nested in a current-platform listing record:
`model.id`, `model.names['en-GB']`, `model.version`. -/
structure AppModel where
  id : String
  namesEnGB : String
  version : String
deriving DecidableEq, Repr

/-- A record of the current (`v3`) app listing: the app model is nested
under `model` (the record also carries a version history the code never
reads). -/
structure CurrentRecord where
  model : AppModel
deriving DecidableEq, Repr

/-- Shape of the listing response, by platform generation. -/
@[reducible] def VersionListing : Bool → Type
  | true => List LegacyRecord
  | false => List CurrentRecord

/-- `getCurrentVersion` (identical in both copies): builds the listing URL
from the platform flag, issues one authenticated GET, finds the record
whose identifier matches `id` (legacy: top-level `id`; current: nested
`model.id`), and returns its version, or `none` (undefined) when no record
matches. -/
def getCurrentVersion (id : String) (legacy : Bool) (baseUrl scope : String) :
    VersionListing legacy → List HttpRequest × Option String :=
  let url := if legacy then baseUrl ++ "/apps?scope=" ++ scope
             else baseUrl ++ "/app/store/all?collectionScope=" ++ scope
  match legacy with
  | true => fun list =>
      ([⟨url, "GET", Body.none⟩],
       (list.find? (fun x => x.id == id)).map (fun x => x.version))
  | false => fun list =>
      ([⟨url, "GET", Body.none⟩],
       (list.find? (fun x => x.model.id == id)).map (fun x => x.model.version))

/-- Response of the single legacy upload request: the new app record with
`name` and `version`. -/
structure LegacyUploadResp where
  name : String
  version : String
deriving DecidableEq, Repr

/-- Response of the Files API upload on the current platform: `fileId` and
`fileSize`. -/
structure FileUploadResp where
  fileId : String
  fileSize : Nat
deriving DecidableEq, Repr

/-- Response of the store-registration request on the current platform:
the registered app record with `names['en-GB']` and `version`. -/
structure StoreResp where
  namesEnGB : String
  version : String
deriving DecidableEq, Repr

/-- Responses `uploadApp` consumes, by platform generation: one response
for legacy, the pair (file upload response, store response) for current. -/
@[reducible] def UploadResponses : Bool → Type
  | true => LegacyUploadResp
  | false => FileUploadResp × StoreResp

/-- `uploadApp` (identical request shapes in both copies): a multipart POST
of the archive to the platform-dependent URL; on legacy that is the only
request and its response's `version` is returned; on the current platform a
second request registers the uploaded `fileId` with the app store (PUT when
updating, POST on first upload) and that response's `version` is returned. -/
def uploadApp (file id : String) (legacy : Bool) (baseUrl scope : String)
    (update : Bool) : UploadResponses legacy → List HttpRequest × String :=
  let url := if legacy then
      baseUrl ++ "/apps/" ++ (if update then "update" else "upload")
        ++ "?appId=" ++ id ++ "&scope=" ++ scope
    else
      baseUrl ++ "/files/file?virtualPath=apps&collectionScope=" ++ scope
  match legacy with
  | true => fun resp => ([⟨url, "POST", Body.multipart file⟩], resp.version)
  | false => fun resp =>
      ([⟨url, "POST", Body.multipart file⟩,
        ⟨baseUrl ++ "/app/store?appId=" ++ id ++ "&collectionScope=" ++ scope
           ++ "&fileId=" ++ resp.1.fileId,
         if update then "PUT" else "POST", Body.none⟩],
       resp.2.version)

/-- Everything the remote side answers during one run: the discovery
document's `token_endpoint` (used only by the `index` copy), the
`access_token`, the app listing, and the upload responses. -/
structure Env (legacy : Bool) where
  token_endpoint : String
  access_token : String
  listing : VersionListing legacy
  upload : UploadResponses legacy

/-- Dry-run report of the `index` copy (chalk formatting dropped). -/
def dryRunMsgIdx (appId : String) (cv : Option String) : String :=
  "\n" ++ (if jsTruthy cv then "Current " ++ appId ++ " version is " ++ cv.getD ""
           else "App " ++ appId ++ " does not exist yet") ++ ". Dry run, quitting."

/-- Dry-run report of the `main` copy (chalk formatting dropped). -/
def dryRunMsgMain (appId : String) (cv : Option String) : String :=
  "\n" ++ (if jsTruthy cv then "Current " ++ appId ++ " version is " ++ cv.getD ""
           else "App " ++ appId ++ " does not exist yet") ++ ". Dry run selected, quitting."

/-- Final report (identical wording in both copies). -/
def finalMsg (appId : String) (cv : Option String) (newVersion : String) : String :=
  if jsTruthy cv then
    "Successfully updated " ++ appId ++ " app from " ++ cv.getD "" ++ " to "
      ++ newVersion ++ "."
  else
    "Successfully uploaded " ++ appId ++ " app for the first time, with version "
      ++ newVersion ++ "."

/-- JavaScript `s.charAt(i)`: the one-character string at index `i`, or the
empty string when `i` is out of range. -/
def jsCharAt (s : String) (i : Int) : String :=
  if 0 ≤ i ∧ i < (s.toList.length : Int) then String.mk [s.toList.getD i.toNat ' ']
  else ""

/-- The redacted client secret of the startup summary (identical in both
copies):
`secret.charAt(0) + '*'.repeat(secret.length - 2) + secret.charAt(secret.length - 1)`.
JavaScript `String.prototype.repeat` throws a `RangeError` on a negative
count, modelled by `none`. -/
def redactSecret (s : String) : Option String :=
  let n : Int := (s.toList.length : Int)
  if n - 2 < 0 then Option.none
  else some (jsCharAt s 0 ++ String.mk (List.replicate (n - 2).toNat '*')
    ++ jsCharAt s (n - 1))

/-- `start` of the `index` copy.  It first builds the startup-summary
template, whose argument is evaluated even when verbose logging is off and
which redacts the client secret — for secrets shorter than two characters
that expression throws a `RangeError` and the run aborts before issuing
any request (the `Option.map` over `redactSecret`).  Otherwise it
authorizes, resolves the current version, then either stops with the
dry-run report (`if (this.dryRun) return ...`) or uploads with
`update := !!currentVersion` and reports the outcome.  The first component
of a completed run is its full request trace, the second the final log
message. -/
def Index.start (cfg : AppCfg) (env : Env cfg.legacy) :
    Option (List HttpRequest × String) :=
  (redactSecret cfg.clientSecret).map (fun _ =>
    let auth := Index.authorize cfg.idSrvUrl cfg.clientId cfg.clientSecret
      cfg.clientScope env.token_endpoint env.access_token
    let v := getCurrentVersion cfg.appId cfg.legacy cfg.apiUrl cfg.appScope env.listing
    if cfg.dryRun then
      (auth.1 ++ v.1, dryRunMsgIdx cfg.appId v.2)
    else
      let u := uploadApp cfg.file cfg.appId cfg.legacy cfg.apiUrl cfg.appScope
        (jsTruthy v.2) env.upload
      (auth.1 ++ v.1 ++ u.1, finalMsg cfg.appId v.2 u.2))

/-- `start` of the `main` copy: identical to the `index` copy (including
the startup-summary redaction, which throws for secrets shorter than two
characters before any request) except that `authorize` hits the fixed
token path and the dry-run wording differs (`if (this.dry) return ...`). -/
def MainSrc.start (cfg : AppCfg) (env : Env cfg.legacy) :
    Option (List HttpRequest × String) :=
  (redactSecret cfg.clientSecret).map (fun _ =>
    let auth := MainSrc.authorize cfg.idSrvUrl cfg.clientId cfg.clientSecret
      cfg.clientScope env.access_token
    let v := getCurrentVersion cfg.appId cfg.legacy cfg.apiUrl cfg.appScope env.listing
    if cfg.dryRun then
      (auth.1 ++ v.1, dryRunMsgMain cfg.appId v.2)
    else
      let u := uploadApp cfg.file cfg.appId cfg.legacy cfg.apiUrl cfg.appScope
        (jsTruthy v.2) env.upload
      (auth.1 ++ v.1 ++ u.1, finalMsg cfg.appId v.2 u.2))

/-- A sample current-platform configuration with the dry-run flag set. -/
def sampleDryCfg : AppCfg :=
  { appId := "acme.timesheet"
    file := "app.zip"
    legacy := false
    tenantId := Option.none
    appScope := "Global"
    apiUrl := "https://api.example"
    idSrvUrl := "https://id.example"
    clientId := "client"
    clientSecret := "s3cret"
    clientScope := "myday_api"
    dryRun := true }

/-- A sample remote environment for `sampleDryCfg`: no app is listed yet. -/
def sampleDryEnv : Env sampleDryCfg.legacy :=
  { token_endpoint := "https://id.example/connect/token"
    access_token := "tok"
    listing := ([] : List CurrentRecord)
    upload := (⟨"file-1", 10⟩, ⟨"Timesheet", "1.0.0"⟩) }

/-- A sample legacy-platform configuration without the dry-run flag. -/
def sampleRunCfg : AppCfg :=
  { appId := "acme.timesheet"
    file := "app.zip"
    legacy := true
    tenantId := Option.none
    appScope := "Global"
    apiUrl := "https://api.example"
    idSrvUrl := "https://id.example"
    clientId := "client"
    clientSecret := "s3cret"
    clientScope := "myday-api"
    dryRun := false }

/-- A sample remote environment for `sampleRunCfg`: the app already exists
at version 1.2.0 and the upload responds with version 1.3.0. -/
def sampleRunEnv : Env sampleRunCfg.legacy :=
  { token_endpoint := "https://id.example/connect/token"
    access_token := "tok"
    listing := ([⟨"acme.timesheet", "Timesheet", "1.2.0"⟩] : List LegacyRecord)
    upload := (⟨"Timesheet", "1.3.0"⟩ : LegacyUploadResp) }

/-- A dry-run configuration whose client secret is a single character, so
the startup-summary redaction throws. -/
def shortSecretDryCfg : AppCfg :=
  { appId := "acme.timesheet"
    file := "app.zip"
    legacy := false
    tenantId := Option.none
    appScope := "Global"
    apiUrl := "https://api.example"
    idSrvUrl := "https://id.example"
    clientId := "client"
    clientSecret := "a"
    clientScope := "myday_api"
    dryRun := true }

/-- A sample remote environment for `shortSecretDryCfg`. -/
def shortSecretDryEnv : Env shortSecretDryCfg.legacy :=
  { token_endpoint := "https://id.example/connect/token"
    access_token := "tok"
    listing := ([] : List CurrentRecord)
    upload := (⟨"file-1", 10⟩, ⟨"Timesheet", "1.0.0"⟩) }

/-- A non-dry configuration whose client secret is a single character, so
the startup-summary redaction throws. -/
def shortSecretRunCfg : AppCfg :=
  { appId := "acme.timesheet"
    file := "app.zip"
    legacy := false
    tenantId := Option.none
    appScope := "Global"
    apiUrl := "https://api.example"
    idSrvUrl := "https://id.example"
    clientId := "client"
    clientSecret := "a"
    clientScope := "myday_api"
    dryRun := false }

/-- A sample remote environment for `shortSecretRunCfg`. -/
def shortSecretRunEnv : Env shortSecretRunCfg.legacy :=
  { token_endpoint := "https://id.example/connect/token"
    access_token := "tok"
    listing := ([] : List CurrentRecord)
    upload := (⟨"file-1", 10⟩, ⟨"Timesheet", "1.0.0"⟩) }

/-! ### Helper lemmas -/

/-- Mapping an extraction function over a failed `find?` yields nothing. -/
theorem find_map_none {α β : Type} (p : α → Bool) (f : α → β) (xs : List α)
    (h : ∀ x ∈ xs, p x = false) : (xs.find? p).map f = Option.none := by
  have hn : xs.find? p = Option.none :=
    List.find?_eq_none.2 (by intro x hx; simp [h x hx])
  rw [hn]
  rfl

/-- Mapping an extraction function over a successful `find?` yields the
image of some matching element. -/
theorem find_map_some {α β : Type} (p : α → Bool) (f : α → β) (xs : List α)
    (h : ∃ x ∈ xs, p x = true) :
    ∃ y ∈ xs, p y = true ∧ (xs.find? p).map f = some (f y) := by
  cases hfind : xs.find? p with
  | none =>
      rcases h with ⟨x, hx, hpx⟩
      have := List.find?_eq_none.1 hfind x hx
      simp [hpx] at this
  | some y =>
      exact ⟨y, List.mem_of_find?_eq_some hfind, List.find?_some hfind, rfl⟩

/-- The single request `getCurrentVersion` issues, for either platform. -/
theorem getCurrentVersion_request (id : String) (legacy : Bool)
    (baseUrl scope : String) (l : VersionListing legacy) :
    (getCurrentVersion id legacy baseUrl scope l).1
      = [⟨if legacy then baseUrl ++ "/apps?scope=" ++ scope
          else baseUrl ++ "/app/store/all?collectionScope=" ++ scope,
          "GET", Body.none⟩] := by
  revert l
  cases legacy <;> intro l <;> rfl

/-- Structure of the redacted secret for secrets of length at least two:
the secret decomposes as first character, interior, last character, and the
redaction keeps the outer characters and replaces the interior by stars. -/
theorem redactSecret_decomp (s : String) (h : 2 ≤ s.toList.length) :
    ∃ a t b, s.toList = a :: (t ++ [b])
      ∧ ∃ r, redactSecret s = some r
          ∧ r.toList = a :: (List.replicate t.length '*' ++ [b]) := by
  cases hcs : s.toList with
  | nil => rw [hcs] at h; simp at h
  | cons a rest =>
    have hrest : rest ≠ [] := by
      intro hr
      rw [hcs, hr] at h
      simp at h
    obtain ⟨t, b, htb⟩ : ∃ t b, rest = t ++ [b] :=
      ⟨rest.dropLast, rest.getLast hrest, (List.dropLast_append_getLast hrest).symm⟩
    subst htb
    have hlen : s.toList.length = t.length + 2 := by rw [hcs]; simp
    have hc0 : jsCharAt s 0 = String.mk [a] := by
      unfold jsCharAt
      rw [if_pos (by constructor <;> omega)]
      rw [hcs]
      rfl
    have hc1 : jsCharAt s ((s.toList.length : Int) - 1) = String.mk [b] := by
      unfold jsCharAt
      rw [if_pos (by constructor <;> omega)]
      have hidx : (((s.toList.length : Int)) - 1).toNat = t.length + 1 := by omega
      rw [hidx, hcs]
      have : (a :: (t ++ [b])).getD (t.length + 1) ' ' = (t ++ [b]).getD t.length ' ' := rfl
      rw [this, List.getD_append_right t [b] ' ' t.length (le_refl _)]
      simp
    have hnt : (((s.toList.length : Int)) - 2).toNat = t.length := by omega
    refine ⟨a, t, b, rfl, ?_⟩
    have hmain : redactSecret s
        = some (String.mk [a] ++ String.mk (List.replicate t.length '*')
            ++ String.mk [b]) := by
      simp only [redactSecret]
      rw [if_neg (by omega), hnt, hc0, hc1]
    refine ⟨_, hmain, ?_⟩
    show (String.mk [a] ++ String.mk (List.replicate t.length '*')
        ++ String.mk [b]).data = _
    rw [String.data_append, String.data_append]
    simp

/-! ### Theorems -/

/-- Claim C2: the Authenticator of one program variant (the `index` copy)
resolves the token endpoint via the well-known discovery document fetched
from `identityUrl/.well-known/openid-configuration`, the other variant (the
`main` copy) via the fixed conventional path `/connect/token`; both then
POST the form-encoded OAuth2 client-credentials grant (`grant_type`,
`client_id`, `client_secret`, `scope`) to that endpoint. -/
theorem authorize_endpoint_and_grant
    (url cid secret scope tokEp tok : String) :
    MydayDeploy.Index.authorize url cid secret scope tokEp tok
      = ([⟨url ++ "/.well-known/openid-configuration", "GET", MydayDeploy.Body.none⟩,
          ⟨tokEp, "POST",
           MydayDeploy.Body.form [("grant_type", "client_credentials"),
             ("client_id", cid), ("client_secret", secret), ("scope", scope)]⟩],
         tok)
    ∧ MydayDeploy.MainSrc.authorize url cid secret scope tok
      = ([⟨url ++ "/connect/token", "POST",
           MydayDeploy.Body.form [("grant_type", "client_credentials"),
             ("client_id", cid), ("client_secret", secret), ("scope", scope)]⟩],
         tok) :=
  ⟨rfl, rfl⟩

/-- Claim C3: on the current (non-legacy) platform, `uploadApp` issues
exactly two requests in order — a multipart POST of the archive to
`{base}/files/file?virtualPath=apps&collectionScope={scope}`, then a
store-registration request to
`{base}/app/store?appId={id}&collectionScope={scope}&fileId={fileId}` with
the `fileId` of the first response — and the second request's method is
PUT iff `update` is true, POST otherwise. -/
theorem uploadApp_current_two_requests
    (file id baseUrl scope : String) (update : Bool)
    (resp : MydayDeploy.FileUploadResp × MydayDeploy.StoreResp) :
    MydayDeploy.uploadApp file id false baseUrl scope update resp
      = ([⟨baseUrl ++ "/files/file?virtualPath=apps&collectionScope=" ++ scope,
           "POST", MydayDeploy.Body.multipart file⟩,
          ⟨baseUrl ++ "/app/store?appId=" ++ id ++ "&collectionScope=" ++ scope
             ++ "&fileId=" ++ resp.1.fileId,
           if update then "PUT" else "POST", MydayDeploy.Body.none⟩],
         resp.2.version)
    ∧ (((MydayDeploy.uploadApp file id false baseUrl scope update resp).1.getD 1
          default).method = "PUT" ↔ update = true) := by
  refine ⟨rfl, ?_⟩
  cases update <;> simp [MydayDeploy.uploadApp]

/-- Claim C4: on the legacy platform, `uploadApp` issues exactly one
request — a multipart POST to `{base}/apps/{update|upload}?appId={id}&scope={scope}`
whose inner path segment is `update` iff the update flag is set and
`upload` otherwise — and returns the `version` field of that single
response. -/
theorem uploadApp_legacy_single_request
    (file id baseUrl scope : String) (update : Bool)
    (resp : MydayDeploy.LegacyUploadResp) :
    MydayDeploy.uploadApp file id true baseUrl scope update resp
      = ([⟨baseUrl ++ "/apps/" ++ (if update then "update" else "upload")
             ++ "?appId=" ++ id ++ "&scope=" ++ scope,
           "POST", MydayDeploy.Body.multipart file⟩],
         resp.version) :=
  rfl

/-- Claim C5: `getCurrentVersion` returns no value whenever the listing
contains no record whose identifier matches the requested id (legacy:
top-level id; current: nested model id), for both platform variants, and
returns the matching record's version string when one exists. -/
theorem getCurrentVersion_matching (id baseUrl scope : String) :
    (∀ xs : List MydayDeploy.LegacyRecord,
       ((∀ x ∈ xs, x.id ≠ id) →
          (MydayDeploy.getCurrentVersion id true baseUrl scope xs).2 = Option.none)
       ∧ ((∃ x ∈ xs, x.id = id) →
          ∃ y ∈ xs, y.id = id ∧
            (MydayDeploy.getCurrentVersion id true baseUrl scope xs).2
              = some y.version))
    ∧ (∀ xs : List MydayDeploy.CurrentRecord,
       ((∀ x ∈ xs, x.model.id ≠ id) →
          (MydayDeploy.getCurrentVersion id false baseUrl scope xs).2 = Option.none)
       ∧ ((∃ x ∈ xs, x.model.id = id) →
          ∃ y ∈ xs, y.model.id = id ∧
            (MydayDeploy.getCurrentVersion id false baseUrl scope xs).2
              = some y.model.version)) := by
  constructor
  · intro xs
    constructor
    · intro h
      show (xs.find? (fun x => x.id == id)).map (fun x => x.version) = Option.none
      exact MydayDeploy.find_map_none _ _ xs
        (by intro x hx; simpa using h x hx)
    · intro h
      have h2 : ∃ x ∈ xs, (fun x : MydayDeploy.LegacyRecord => x.id == id) x = true := by
        rcases h with ⟨x, hx, hid⟩
        exact ⟨x, hx, by simp [hid]⟩
      rcases MydayDeploy.find_map_some _
          (fun x : MydayDeploy.LegacyRecord => x.version) xs h2 with ⟨y, hy, hpy, hmap⟩
      exact ⟨y, hy, by simpa using hpy, hmap⟩
  · intro xs
    constructor
    · intro h
      show (xs.find? (fun x => x.model.id == id)).map (fun x => x.model.version)
        = Option.none
      exact MydayDeploy.find_map_none _ _ xs
        (by intro x hx; simpa using h x hx)
    · intro h
      have h2 : ∃ x ∈ xs, (fun x : MydayDeploy.CurrentRecord => x.model.id == id) x
          = true := by
        rcases h with ⟨x, hx, hid⟩
        exact ⟨x, hx, by simp [hid]⟩
      rcases MydayDeploy.find_map_some _
          (fun x : MydayDeploy.CurrentRecord => x.model.version) xs h2
        with ⟨y, hy, hpy, hmap⟩
      exact ⟨y, hy, by simpa using hpy, hmap⟩

/-- Witness for `getCurrentVersion_matching`: a singleton legacy listing
containing the app yields its version, and an empty current listing yields
no value. -/
theorem getCurrentVersion_matching_witness :
    (∃ y ∈ [MydayDeploy.LegacyRecord.mk "acme.timesheet" "Timesheet" "1.2.0"],
       y.id = "acme.timesheet" ∧
       (MydayDeploy.getCurrentVersion "acme.timesheet" true "https://api.example"
          "Global" [MydayDeploy.LegacyRecord.mk "acme.timesheet" "Timesheet" "1.2.0"]).2
         = some y.version)
    ∧ (MydayDeploy.getCurrentVersion "acme.timesheet" false "https://api.example"
         "Global" ([] : List MydayDeploy.CurrentRecord)).2 = Option.none := by
  constructor
  · exact ((MydayDeploy.getCurrentVersion_matching "acme.timesheet"
        "https://api.example" "Global").1
        [MydayDeploy.LegacyRecord.mk "acme.timesheet" "Timesheet" "1.2.0"]).2
      ⟨MydayDeploy.LegacyRecord.mk "acme.timesheet" "Timesheet" "1.2.0",
        by simp, rfl⟩
  · exact ((MydayDeploy.getCurrentVersion_matching "acme.timesheet"
        "https://api.example" "Global").2 []).1 (by intro x hx; simp at hx)

/-- Claim C6: the derived application scope is a pure function of the
configuration's (optional) tenant identifier: `Global` when it is absent
or empty, `Tenant` otherwise; and the constructor always stores exactly
the scope derived from the tenant identifier it stores, never an
independent value. -/
theorem appScope_pure_function_of_tenant :
    (∀ t : Option String,
       MydayDeploy.derivedAppScope t
         = if t = Option.none ∨ t = some "" then "Global" else "Tenant")
    ∧ (∀ appId file platform tenantId apiUrl idSrvUrl cid secret dryRun,
       (MydayDeploy.mkAppCfg appId file platform tenantId apiUrl idSrvUrl
          cid secret dryRun).appScope
         = MydayDeploy.derivedAppScope
             (MydayDeploy.mkAppCfg appId file platform tenantId apiUrl idSrvUrl
                cid secret dryRun).tenantId) := by
  constructor
  · intro t
    cases t with
    | none => rfl
    | some s =>
        by_cases h : s = "" <;>
          simp [MydayDeploy.derivedAppScope, MydayDeploy.jsTruthy, h]
  · intro appId file platform tenantId apiUrl idSrvUrl cid secret dryRun
    rfl

/-- Claim C9 (implicit): the OAuth scope requested during the
client-credentials grant is determined solely by the platform variant —
`myday-api` when the platform is legacy (`v2`), `myday_api` when it is
current — both as stored by the constructor and as carried by the token
request of every run (of either program copy) that issues requests at all
(a run whose startup summary throws performs no grant request). -/
theorem oauth_scope_by_platform_variant :
    (∀ appId file platform tenantId apiUrl idSrvUrl cid secret dryRun,
       (MydayDeploy.mkAppCfg appId file platform tenantId apiUrl idSrvUrl
          cid secret dryRun).clientScope
         = if platform == "v2" then "myday-api" else "myday_api")
    ∧ (∀ cfg : MydayDeploy.AppCfg, ∀ env : MydayDeploy.Env cfg.legacy,
       ∀ out ∈ MydayDeploy.Index.start cfg env,
         out.1.getD 1 default
           = ⟨env.token_endpoint, "POST",
              MydayDeploy.Body.form
                (MydayDeploy.tokenForm cfg.clientId cfg.clientSecret cfg.clientScope)⟩)
    ∧ (∀ cfg : MydayDeploy.AppCfg, ∀ env : MydayDeploy.Env cfg.legacy,
       ∀ out ∈ MydayDeploy.MainSrc.start cfg env,
         out.1.getD 0 default
           = ⟨cfg.idSrvUrl ++ "/connect/token", "POST",
              MydayDeploy.Body.form
                (MydayDeploy.tokenForm cfg.clientId cfg.clientSecret cfg.clientScope)⟩) := by
  refine ⟨?_, ?_, ?_⟩
  · intro appId file platform tenantId apiUrl idSrvUrl cid secret dryRun
    rfl
  · intro cfg env out hout
    rw [Option.mem_def] at hout
    simp only [MydayDeploy.Index.start] at hout
    cases hred : MydayDeploy.redactSecret cfg.clientSecret with
    | none =>
        rw [hred] at hout
        simp at hout
    | some w =>
        rw [hred] at hout
        simp only [Option.map_some', Option.some.injEq] at hout
        subst hout
        cases hd : cfg.dryRun <;> rfl
  · intro cfg env out hout
    rw [Option.mem_def] at hout
    simp only [MydayDeploy.MainSrc.start] at hout
    cases hred : MydayDeploy.redactSecret cfg.clientSecret with
    | none =>
        rw [hred] at hout
        simp at hout
    | some w =>
        rw [hred] at hout
        simp only [Option.map_some', Option.some.injEq] at hout
        subst hout
        cases hd : cfg.dryRun <;> rfl

/-- Witness for `oauth_scope_by_platform_variant`: the completed sample dry
run produces a trace whose second request is the token POST carrying the
stored scope. -/
theorem oauth_scope_by_platform_variant_witness :
    ∃ out ∈ MydayDeploy.Index.start MydayDeploy.sampleDryCfg MydayDeploy.sampleDryEnv,
      out.1.getD 1 default
        = ⟨"https://id.example/connect/token", "POST",
           MydayDeploy.Body.form
             (MydayDeploy.tokenForm "client" "s3cret" "myday_api")⟩ := by
  have hmem : ([⟨"https://id.example/.well-known/openid-configuration", "GET",
          MydayDeploy.Body.none⟩,
        ⟨"https://id.example/connect/token", "POST",
         MydayDeploy.Body.form
           (MydayDeploy.tokenForm "client" "s3cret" "myday_api")⟩,
        ⟨"https://api.example/app/store/all?collectionScope=Global", "GET",
         MydayDeploy.Body.none⟩],
       MydayDeploy.dryRunMsgIdx "acme.timesheet" Option.none)
        ∈ MydayDeploy.Index.start MydayDeploy.sampleDryCfg MydayDeploy.sampleDryEnv :=
    Option.mem_def.mpr rfl
  exact ⟨_, hmem,
    MydayDeploy.oauth_scope_by_platform_variant.2.1 MydayDeploy.sampleDryCfg
      MydayDeploy.sampleDryEnv _ hmem⟩

/-- Claim C10 (implicit): a `tenantId` input that is not a string, or that
equals the literal string null, is treated as absent — the stored tenant
identifier is null and the derived scope is `Global`. -/
theorem tenant_nonstring_or_null_literal_global
    (v : MydayDeploy.JsVal)
    (h : (∀ s, v ≠ MydayDeploy.JsVal.str s) ∨ v = MydayDeploy.JsVal.str "null") :
    MydayDeploy.storedTenantId v = Option.none
    ∧ MydayDeploy.derivedAppScope (MydayDeploy.storedTenantId v) = "Global" := by
  have hst : MydayDeploy.storedTenantId v = Option.none := by
    rcases h with h | h
    · cases v with
      | str s => exact absurd rfl (h s)
      | jsNull => rfl
      | undef => rfl
      | num n => rfl
      | boolean b => rfl
    · subst h
      rfl
  refine ⟨hst, ?_⟩
  rw [hst]
  rfl

/-- Witness for `tenant_nonstring_or_null_literal_global` at the concrete
input string literal null. -/
theorem tenant_nonstring_or_null_literal_global_witness :
    MydayDeploy.storedTenantId (MydayDeploy.JsVal.str "null") = Option.none
    ∧ MydayDeploy.derivedAppScope
        (MydayDeploy.storedTenantId (MydayDeploy.JsVal.str "null")) = "Global" :=
  tenant_nonstring_or_null_literal_global (MydayDeploy.JsVal.str "null") (Or.inr rfl)

/-- Claim C1 (amended): with the dry-run flag set, no run of either
program copy ever issues an upload request, for either platform variant;
and whenever the client secret has at least two characters (so the
startup summary does not throw), the run performs exactly the
authorization requests and the single version-listing request and halts
with the dry-run report of whether the app exists. -/
theorem dry_run_never_uploads (cfg : MydayDeploy.AppCfg)
    (env : MydayDeploy.Env cfg.legacy) (h : cfg.dryRun = true)
    (hs : 2 ≤ cfg.clientSecret.toList.length) :
    MydayDeploy.Index.start cfg env
      = some ([⟨cfg.idSrvUrl ++ "/.well-known/openid-configuration", "GET",
           MydayDeploy.Body.none⟩,
          ⟨env.token_endpoint, "POST",
           MydayDeploy.Body.form
             (MydayDeploy.tokenForm cfg.clientId cfg.clientSecret cfg.clientScope)⟩,
          ⟨if cfg.legacy then cfg.apiUrl ++ "/apps?scope=" ++ cfg.appScope
            else cfg.apiUrl ++ "/app/store/all?collectionScope=" ++ cfg.appScope,
           "GET", MydayDeploy.Body.none⟩],
         MydayDeploy.dryRunMsgIdx cfg.appId
           (MydayDeploy.getCurrentVersion cfg.appId cfg.legacy cfg.apiUrl
              cfg.appScope env.listing).2)
    ∧ MydayDeploy.MainSrc.start cfg env
      = some ([⟨cfg.idSrvUrl ++ "/connect/token", "POST",
           MydayDeploy.Body.form
             (MydayDeploy.tokenForm cfg.clientId cfg.clientSecret cfg.clientScope)⟩,
          ⟨if cfg.legacy then cfg.apiUrl ++ "/apps?scope=" ++ cfg.appScope
            else cfg.apiUrl ++ "/app/store/all?collectionScope=" ++ cfg.appScope,
           "GET", MydayDeploy.Body.none⟩],
         MydayDeploy.dryRunMsgMain cfg.appId
           (MydayDeploy.getCurrentVersion cfg.appId cfg.legacy cfg.apiUrl
              cfg.appScope env.listing).2)
    ∧ (∀ out ∈ MydayDeploy.Index.start cfg env,
         ∀ r ∈ out.1, ∀ f, r.body ≠ MydayDeploy.Body.multipart f)
    ∧ (∀ out ∈ MydayDeploy.MainSrc.start cfg env,
         ∀ r ∈ out.1, ∀ f, r.body ≠ MydayDeploy.Body.multipart f) := by
  obtain ⟨a, t, b, hst, w, hw, hwt⟩ :=
    MydayDeploy.redactSecret_decomp cfg.clientSecret hs
  have hidx : MydayDeploy.Index.start cfg env
      = some ([⟨cfg.idSrvUrl ++ "/.well-known/openid-configuration", "GET",
           MydayDeploy.Body.none⟩,
          ⟨env.token_endpoint, "POST",
           MydayDeploy.Body.form
             (MydayDeploy.tokenForm cfg.clientId cfg.clientSecret cfg.clientScope)⟩,
          ⟨if cfg.legacy then cfg.apiUrl ++ "/apps?scope=" ++ cfg.appScope
            else cfg.apiUrl ++ "/app/store/all?collectionScope=" ++ cfg.appScope,
           "GET", MydayDeploy.Body.none⟩],
         MydayDeploy.dryRunMsgIdx cfg.appId
           (MydayDeploy.getCurrentVersion cfg.appId cfg.legacy cfg.apiUrl
              cfg.appScope env.listing).2) := by
    simp [MydayDeploy.Index.start, hw, h, MydayDeploy.Index.authorize,
      MydayDeploy.getCurrentVersion_request]
  have hmain : MydayDeploy.MainSrc.start cfg env
      = some ([⟨cfg.idSrvUrl ++ "/connect/token", "POST",
           MydayDeploy.Body.form
             (MydayDeploy.tokenForm cfg.clientId cfg.clientSecret cfg.clientScope)⟩,
          ⟨if cfg.legacy then cfg.apiUrl ++ "/apps?scope=" ++ cfg.appScope
            else cfg.apiUrl ++ "/app/store/all?collectionScope=" ++ cfg.appScope,
           "GET", MydayDeploy.Body.none⟩],
         MydayDeploy.dryRunMsgMain cfg.appId
           (MydayDeploy.getCurrentVersion cfg.appId cfg.legacy cfg.apiUrl
              cfg.appScope env.listing).2) := by
    simp [MydayDeploy.MainSrc.start, hw, h, MydayDeploy.MainSrc.authorize,
      MydayDeploy.getCurrentVersion_request]
  refine ⟨hidx, hmain, ?_, ?_⟩
  · intro out hout r hr f
    rw [hidx, Option.mem_def] at hout
    simp only [Option.some.injEq] at hout
    subst hout
    simp only [List.mem_cons, List.not_mem_nil, or_false] at hr
    rcases hr with h1 | h1 | h1 <;> subst h1 <;> simp
  · intro out hout r hr f
    rw [hmain, Option.mem_def] at hout
    simp only [Option.some.injEq] at hout
    subst hout
    simp only [List.mem_cons, List.not_mem_nil, or_false] at hr
    rcases hr with h1 | h1 <;> subst h1 <;> simp

/-- Witness for `dry_run_never_uploads` at the sample dry-run
configuration: the run completes and reports that the app does not exist
yet. -/
theorem dry_run_never_uploads_witness :
    MydayDeploy.sampleDryCfg.dryRun = true
    ∧ 2 ≤ MydayDeploy.sampleDryCfg.clientSecret.toList.length
    ∧ (MydayDeploy.Index.start MydayDeploy.sampleDryCfg
        MydayDeploy.sampleDryEnv).map Prod.snd
        = some (MydayDeploy.dryRunMsgIdx "acme.timesheet" Option.none) := by
  refine ⟨rfl, by decide, ?_⟩
  have h := (MydayDeploy.dry_run_never_uploads MydayDeploy.sampleDryCfg
    MydayDeploy.sampleDryEnv rfl (by decide)).1
  rw [h]
  rfl

/-- Counterexample to claim C1 as stated: at a dry-run configuration whose
client secret is the single character a, both program copies throw while
building the startup summary — the run issues no listing request and
produces no dry-run report at all, so it does not halt after the Version
Resolver step reporting whether the app exists. -/
theorem dry_run_crash_short_secret :
    MydayDeploy.shortSecretDryCfg.dryRun = true
    ∧ MydayDeploy.Index.start MydayDeploy.shortSecretDryCfg
        MydayDeploy.shortSecretDryEnv = Option.none
    ∧ MydayDeploy.MainSrc.start MydayDeploy.shortSecretDryCfg
        MydayDeploy.shortSecretDryEnv = Option.none :=
  ⟨rfl, rfl, rfl⟩

/-- Claim C7 (amended): in every non-dry run (of either program copy)
whose client secret has at least two characters, the orchestrator calls
the uploader with the update flag equal to the truthiness of the resolved
current version, and the final report is the updated-from-to message
exactly when a version was found, the first-time message exactly when
none was found, with the new version being the value the uploader
returned. -/
theorem nondry_update_flag_and_report (cfg : MydayDeploy.AppCfg)
    (env : MydayDeploy.Env cfg.legacy) (h : cfg.dryRun = false)
    (hs : 2 ≤ cfg.clientSecret.toList.length) :
    MydayDeploy.Index.start cfg env
      = some ((MydayDeploy.Index.authorize cfg.idSrvUrl cfg.clientId cfg.clientSecret
            cfg.clientScope env.token_endpoint env.access_token).1
          ++ (MydayDeploy.getCurrentVersion cfg.appId cfg.legacy cfg.apiUrl
                cfg.appScope env.listing).1
          ++ (MydayDeploy.uploadApp cfg.file cfg.appId cfg.legacy cfg.apiUrl
                cfg.appScope
                (MydayDeploy.jsTruthy
                  (MydayDeploy.getCurrentVersion cfg.appId cfg.legacy cfg.apiUrl
                    cfg.appScope env.listing).2)
                env.upload).1,
         if MydayDeploy.jsTruthy
              (MydayDeploy.getCurrentVersion cfg.appId cfg.legacy cfg.apiUrl
                cfg.appScope env.listing).2 then
           "Successfully updated " ++ cfg.appId ++ " app from "
             ++ ((MydayDeploy.getCurrentVersion cfg.appId cfg.legacy cfg.apiUrl
                   cfg.appScope env.listing).2).getD ""
             ++ " to "
             ++ (MydayDeploy.uploadApp cfg.file cfg.appId cfg.legacy cfg.apiUrl
                   cfg.appScope
                   (MydayDeploy.jsTruthy
                     (MydayDeploy.getCurrentVersion cfg.appId cfg.legacy cfg.apiUrl
                       cfg.appScope env.listing).2)
                   env.upload).2
             ++ "."
         else
           "Successfully uploaded " ++ cfg.appId
             ++ " app for the first time, with version "
             ++ (MydayDeploy.uploadApp cfg.file cfg.appId cfg.legacy cfg.apiUrl
                   cfg.appScope
                   (MydayDeploy.jsTruthy
                     (MydayDeploy.getCurrentVersion cfg.appId cfg.legacy cfg.apiUrl
                       cfg.appScope env.listing).2)
                   env.upload).2
             ++ ".")
    ∧ MydayDeploy.MainSrc.start cfg env
      = some ((MydayDeploy.MainSrc.authorize cfg.idSrvUrl cfg.clientId cfg.clientSecret
            cfg.clientScope env.access_token).1
          ++ (MydayDeploy.getCurrentVersion cfg.appId cfg.legacy cfg.apiUrl
                cfg.appScope env.listing).1
          ++ (MydayDeploy.uploadApp cfg.file cfg.appId cfg.legacy cfg.apiUrl
                cfg.appScope
                (MydayDeploy.jsTruthy
                  (MydayDeploy.getCurrentVersion cfg.appId cfg.legacy cfg.apiUrl
                    cfg.appScope env.listing).2)
                env.upload).1,
         if MydayDeploy.jsTruthy
              (MydayDeploy.getCurrentVersion cfg.appId cfg.legacy cfg.apiUrl
                cfg.appScope env.listing).2 then
           "Successfully updated " ++ cfg.appId ++ " app from "
             ++ ((MydayDeploy.getCurrentVersion cfg.appId cfg.legacy cfg.apiUrl
                   cfg.appScope env.listing).2).getD ""
             ++ " to "
             ++ (MydayDeploy.uploadApp cfg.file cfg.appId cfg.legacy cfg.apiUrl
                   cfg.appScope
                   (MydayDeploy.jsTruthy
                     (MydayDeploy.getCurrentVersion cfg.appId cfg.legacy cfg.apiUrl
                       cfg.appScope env.listing).2)
                   env.upload).2
             ++ "."
         else
           "Successfully uploaded " ++ cfg.appId
             ++ " app for the first time, with version "
             ++ (MydayDeploy.uploadApp cfg.file cfg.appId cfg.legacy cfg.apiUrl
                   cfg.appScope
                   (MydayDeploy.jsTruthy
                     (MydayDeploy.getCurrentVersion cfg.appId cfg.legacy cfg.apiUrl
                       cfg.appScope env.listing).2)
                   env.upload).2
             ++ ".") := by
  obtain ⟨a, t, b, hst, w, hw, hwt⟩ :=
    MydayDeploy.redactSecret_decomp cfg.clientSecret hs
  constructor
  · simp [MydayDeploy.Index.start, hw, h, MydayDeploy.finalMsg]
  · simp [MydayDeploy.MainSrc.start, hw, h, MydayDeploy.finalMsg]

/-- Witness for `nondry_update_flag_and_report` at the sample legacy
configuration: the app exists at 1.2.0, the upload returns 1.3.0, and the
run completes reporting the update transition. -/
theorem nondry_update_flag_and_report_witness :
    MydayDeploy.sampleRunCfg.dryRun = false
    ∧ 2 ≤ MydayDeploy.sampleRunCfg.clientSecret.toList.length
    ∧ (MydayDeploy.Index.start MydayDeploy.sampleRunCfg
        MydayDeploy.sampleRunEnv).map Prod.snd
        = some "Successfully updated acme.timesheet app from 1.2.0 to 1.3.0." := by
  refine ⟨rfl, by decide, ?_⟩
  have h := (MydayDeploy.nondry_update_flag_and_report MydayDeploy.sampleRunCfg
    MydayDeploy.sampleRunEnv rfl (by decide)).1
  rw [h]
  rfl

/-- Counterexample to claim C7 as stated: at a non-dry configuration whose
client secret is the single character a, both program copies throw while
building the startup summary — no request is issued, the uploader is never
called, and no final report is produced. -/
theorem nondry_crash_short_secret :
    MydayDeploy.shortSecretRunCfg.dryRun = false
    ∧ MydayDeploy.Index.start MydayDeploy.shortSecretRunCfg
        MydayDeploy.shortSecretRunEnv = Option.none
    ∧ MydayDeploy.MainSrc.start MydayDeploy.shortSecretRunCfg
        MydayDeploy.shortSecretRunEnv = Option.none :=
  ⟨rfl, rfl, rfl⟩

/-- Claim C8 (amended): for every client secret of length at least two,
the redacted secret the startup summary logs keeps exactly the first and
last characters, has the same length as the secret, and every interior
character is a star. -/
theorem redactSecret_masks_interior (s : String) (h : 2 ≤ s.toList.length) :
    ∃ r, MydayDeploy.redactSecret s = some r
      ∧ r.toList.length = s.toList.length
      ∧ r.toList.head? = s.toList.head?
      ∧ r.toList.getLast? = s.toList.getLast?
      ∧ (r.toList.drop 1).take (s.toList.length - 2)
          = List.replicate (s.toList.length - 2) '*' := by
  obtain ⟨a, t, b, hst, r, hr, hrt⟩ := MydayDeploy.redactSecret_decomp s h
  refine ⟨r, hr, ?_, ?_, ?_, ?_⟩
  · rw [hst, hrt]
    simp
  · rw [hst, hrt]
    rfl
  · rw [hst, hrt]
    rw [show (a : Char) :: (List.replicate t.length '*' ++ [b])
          = (a :: List.replicate t.length '*') ++ [b] from rfl,
        show (a : Char) :: (t ++ [b]) = (a :: t) ++ [b] from rfl,
        List.getLast?_concat, List.getLast?_concat]
  · rw [hst, hrt]
    have hl : (a :: (t ++ [b])).length - 2 = t.length := by simp
    rw [hl]
    show (List.replicate t.length '*' ++ [b]).take t.length = _
    rw [List.take_left' (List.length_replicate t.length '*')]

/-- Witness for `redactSecret_masks_interior` at the six-character secret
of the sample configuration. -/
theorem redactSecret_masks_interior_witness :
    2 ≤ "s3cret".toList.length
    ∧ ∃ r, MydayDeploy.redactSecret "s3cret" = some r
        ∧ r.toList.length = "s3cret".toList.length
        ∧ r.toList.head? = "s3cret".toList.head?
        ∧ r.toList.getLast? = "s3cret".toList.getLast?
        ∧ (r.toList.drop 1).take ("s3cret".toList.length - 2)
            = List.replicate ("s3cret".toList.length - 2) '*' :=
  ⟨by decide, MydayDeploy.redactSecret_masks_interior "s3cret" (by decide)⟩

/-- Counterexample to claim C8 as stated: for the one-character client
secret, the redaction expression throws (string repeat with count minus
one), so no redacted summary string of the secret's length is produced at
all — the universally quantified claim fails at this input. -/
theorem redactSecret_short_secret_throws :
    MydayDeploy.redactSecret "a" = Option.none := by
  rfl

end MydayDeploy
